import Mathlib

/-!
Verification of the codrag (Cora) code-RAG engine specification against the
repository's source.

The repository's executable code consists of the Weaviate schema declarations
(`src/db/schema.ts`), the HTTP entry point (`src/main.ts`), and shared type
declarations (the `CodeChunk` / `QueryRequest` interfaces).  Those parts are
embedded below directly from the source.  Components that the design documents
describe but that have no implementation under `src/` (the chunk builder, the
reference resolver, and the budget assembler) are modelled from the spec text;
each such definition carries a doc comment starting with
`Modelled from the spec:`.
-/

/-! ## Embedding of `src/db/schema.ts` -/

/-- One property of a Weaviate class schema, as written in
`src/db/schema.ts`: a name, a dataType list, a description, and the two
index flags (absent in the source object literal means false). -/
structure SchemaProperty where
  name : String
  dataType : List String
  description : String
  indexFilterable : Bool := false
  indexSearchable : Bool := false
deriving DecidableEq, Repr

/-- A named-vector configuration of a Weaviate class
(`namedVectors` entry in `src/db/schema.ts`). -/
structure NamedVector where
  name : String
  vectorizer : String
  dimension : Nat
deriving DecidableEq, Repr

/-- A Weaviate class schema: class name, named vectors, properties. -/
structure ClassSchema where
  className : String
  namedVectors : List NamedVector := []
  properties : List SchemaProperty
deriving DecidableEq, Repr

/-- `contentEntityDefinitionSchema` from `src/db/schema.ts` lines 4-56. -/
def contentEntityDefinitionSchema : ClassSchema :=
  { className := "ContentEntityDefinition"
    properties :=
      [ { name := "identifier", dataType := ["text"],
          description := "The name or heading of this entity (function name, class name, doc section, etc.)",
          indexFilterable := true, indexSearchable := true }
      , { name := "entityType", dataType := ["text"],
          description := "High-level type: function, class, markdownSection, etc.",
          indexFilterable := true, indexSearchable := true }
      , { name := "fileVersion", dataType := ["FileVersion"],
          description := "Reference to the specific FileVersion in which this definition appears" }
      , { name := "filePath", dataType := ["text"],
          description := "The file path for this definition, typically redundant with fileVersion but convenient.",
          indexFilterable := true, indexSearchable := true }
      , { name := "lineStart", dataType := ["int"],
          description := "Line number where the definition starts",
          indexFilterable := true }
      , { name := "lineEnd", dataType := ["int"],
          description := "Line number where the definition ends",
          indexFilterable := true }
      , { name := "definedInChunk", dataType := ["Chunk"],
          description := "Optional reference to the chunk that physically contains the definition" }
      ] }

/-- `contentEntityReferenceSchema` from `src/db/schema.ts` lines 58-110. -/
def contentEntityReferenceSchema : ClassSchema :=
  { className := "ContentEntityReference"
    properties :=
      [ { name := "identifierUsed", dataType := ["text"],
          description := "The literal name or heading used in the referencing code or doc. E.g., fooMethod.",
          indexFilterable := true, indexSearchable := true }
      , { name := "referenceType", dataType := ["text"],
          description := "call, import, link, reexport, mention, etc.",
          indexFilterable := true, indexSearchable := true }
      , { name := "fileVersion", dataType := ["FileVersion"],
          description := "The version of the file in which this reference occurs" }
      , { name := "filePath", dataType := ["text"],
          description := "The referencing file path (optional if implied by fileVersion)",
          indexFilterable := true, indexSearchable := true }
      , { name := "lineStart", dataType := ["int"],
          description := "Line where this reference is used",
          indexFilterable := true }
      , { name := "lineEnd", dataType := ["int"],
          description := "Line range end for the usage",
          indexFilterable := true }
      , { name := "appearsInChunk", dataType := ["Chunk"],
          description := "Reference to the chunk containing this usage, if you want chunk-level linking" }
      ] }

/-- `fileVersionSchema` from `src/db/schema.ts` lines 112-149. -/
def fileVersionSchema : ClassSchema :=
  { className := "FileVersion"
    properties :=
      [ { name := "repoId", dataType := ["text"],
          description := "Repository identifier",
          indexFilterable := true, indexSearchable := true }
      , { name := "projectDir", dataType := ["text"],
          description := "Project directory path",
          indexFilterable := true, indexSearchable := true }
      , { name := "filePath", dataType := ["text"],
          description := "Path to the file within the project",
          indexFilterable := true, indexSearchable := true }
      , { name := "contentHash", dataType := ["text"],
          description := "Hash of the file content",
          indexFilterable := true, indexSearchable := true }
      , { name := "chunks", dataType := ["Chunk"],
          description := "Associated code chunks from this file version" }
      ] }

/-- `chunkSchema` from `src/db/schema.ts` lines 151-240, including its
`namedVectors` block (lines 153-158). -/
def chunkSchema : ClassSchema :=
  { className := "Chunk"
    namedVectors :=
      [ { name := "embed_formatted_voyage_c3", vectorizer := "none", dimension := 2048 } ]
    properties :=
      [ { name := "content", dataType := ["text"],
          description := "Verbatim code content of the chunk",
          indexSearchable := true }
      , { name := "commentary", dataType := ["text"],
          description := "AI-generated commentary about the chunk",
          indexSearchable := true }
      , { name := "repoId", dataType := ["text"],
          description := "An identifier for the repository this chunk comes from",
          indexFilterable := true, indexSearchable := true }
      , { name := "filePath", dataType := ["text"],
          description := "Path to the source file",
          indexFilterable := true, indexSearchable := true }
      , { name := "contentHash", dataType := ["text"],
          description := "A hash of the file content (for deduplication)",
          indexFilterable := true, indexSearchable := true }
      , { name := "lineStart", dataType := ["int"],
          description := "Starting line number in the source file",
          indexFilterable := true }
      , { name := "lineEnd", dataType := ["int"],
          description := "Ending line number in the source file",
          indexFilterable := true }
      , { name := "language", dataType := ["text"],
          description := "Programming language of the chunk",
          indexFilterable := true, indexSearchable := true }
      , { name := "declarationType", dataType := ["text"],
          description := "High-level classification (function, class, etc.)",
          indexFilterable := true, indexSearchable := true }
      , { name := "referenceSymbols", dataType := ["text"],
          description := "Symbol-level references (imports, function calls, etc.)",
          indexFilterable := true, indexSearchable := true }
      , { name := "referenceChunks", dataType := ["Chunk"],
          description := "Cross-reference to other Chunks this chunk calls or depends on" }
      , { name := "fileVersion", dataType := ["FileVersion"],
          description := "Reference to the FileVersion this chunk belongs to" }
      ] }

/-- `commitFileVersionSchema` from `src/db/schema.ts` lines 242-264. -/
def commitFileVersionSchema : ClassSchema :=
  { className := "CommitFileVersion"
    properties :=
      [ { name := "commitHash", dataType := ["text"],
          description := "Git commit hash",
          indexFilterable := true, indexSearchable := true }
      , { name := "fileVersion", dataType := ["FileVersion"],
          description := "Reference to the associated FileVersion" }
      , { name := "timestamp", dataType := ["date"],
          description := "Commit timestamp",
          indexFilterable := true }
      ] }

/-- `createAllSchemas` from `src/db/schema.ts` lines 266-288.  The three
sequential `classCreator` calls on a client whose store already holds the
classes `existing` are modelled as appending exactly the classes the code
registers, in call order.  (The source registers only `chunkSchema`,
`fileVersionSchema`, and `commitFileVersionSchema`; the two content-entity
schemas defined in the same file are never passed to a `classCreator`.) -/
def createAllSchemas (existing : List ClassSchema) : List ClassSchema :=
  existing ++ [chunkSchema, fileVersionSchema, commitFileVersionSchema]

/-- The class names present in a store state. -/
def classNames (store : List ClassSchema) : List String :=
  store.map ClassSchema.className

/-! ## Embedding of `src/main.ts` -/

/-- An HTTP response as the oak middleware in `src/main.ts` shapes it:
a status code and a JSON object body given as key/value pairs. -/
structure HttpResponse where
  status : Nat
  body : List (String × String)
deriving DecidableEq, Repr

/-- The top-level error middleware of `src/main.ts` (lines 12-20): `await
next()` either returns a response or throws; the catch block replaces a
thrown error with status 500 and body containing the single field
`error: Internal server error`. -/
def errorMiddleware (next : Except String HttpResponse) : HttpResponse :=
  match next with
  | Except.ok r => r
  | Except.error _ => { status := 500, body := [("error", "Internal server error")] }

/-- JavaScript `parseInt` on a string with no radix argument, restricted to
its decimal behaviour: skip leading whitespace, read an optional sign, then
the longest prefix of decimal digits; `NaN` (here `none`) when no digit
follows. -/
def jsParseInt (s : String) : Option Int :=
  let cs := s.data.dropWhile (fun c =>
    c = ' ' ∨ c = '\t' ∨ c = '\n' ∨ c = '\r')
  let digitsVal : List Char → Option Nat := fun l =>
    let ds := l.takeWhile Char.isDigit
    if ds.isEmpty then none
    else some (ds.foldl (fun a c => a * 10 + (c.toNat - 48)) 0)
  match cs with
  | '-' :: rest => (digitsVal rest).map (fun n => -(n : Int))
  | '+' :: rest => (digitsVal rest).map (fun n => (n : Int))
  | _ => (digitsVal cs).map (fun n => (n : Int))

/-- Line 8 of `src/main.ts`:
`const port = parseInt(Deno.env.get("PORT") || "3000")`.
`Deno.env.get` yields `undefined` (here `none`) when the variable is unset;
`||` replaces both `undefined` and the falsy empty string with `"3000"`. -/
def port (envPort : Option String) : Option Int :=
  jsParseInt (match envPort with
    | none => "3000"
    | some s => if s = "" then "3000" else s)

/-! ## Embedding of the shared type declarations (`QueryRequest`) -/

/-- A field of a TypeScript interface: its name and whether it is declared
optional (with `?`). -/
structure TsField where
  name : String
  optional : Bool
deriving DecidableEq, Repr

/-- Fields of the `QueryRequest` interface (shared types file, lines 12-31). -/
def queryRequestFields : List TsField :=
  [ { name := "messages", optional := false }
  , { name := "approxLength", optional := false }
  , { name := "repos", optional := false }
  , { name := "boostDirectives", optional := true } ]

/-- Fields of one element of `QueryRequest.messages`. -/
def queryRequestMessageFields : List TsField :=
  [ { name := "role", optional := false }
  , { name := "content", optional := false } ]

/-- Fields of one element of `QueryRequest.repos`: `originUri: string;
checkoutPath?: string; versionSpecifier: string`. -/
def queryRequestRepoFields : List TsField :=
  [ { name := "originUri", optional := false }
  , { name := "checkoutPath", optional := true }
  , { name := "versionSpecifier", optional := false } ]

/-- Fields of `QueryRequest.boostDirectives`. -/
def boostDirectivesFields : List TsField :=
  [ { name := "files", optional := true }
  , { name := "declarations", optional := true } ]

/-- Fields of one element of `boostDirectives.declarations`. -/
def boostDeclarationFields : List TsField :=
  [ { name := "repoId", optional := false }
  , { name := "path", optional := false }
  , { name := "includeImplementation", optional := false } ]

/-- Whether a field list declares `n` with optionality `b`. -/
def hasField (fields : List TsField) (n : String) (b : Bool) : Prop :=
  { name := n, optional := b : TsField } ∈ fields

instance (fields : List TsField) (n : String) (b : Bool) :
    Decidable (hasField fields n b) := by
  unfold hasField
  infer_instance

/-- The query-request shape exactly as claim C6 words it: messages,
approxLength, and repos required; the version specifier optional per repo;
boostDirectives optional with files and declarations, declarations carrying
repoId, path, includeImplementation. -/
def claimC6Shape : Prop :=
  hasField queryRequestFields "messages" false ∧
  hasField queryRequestFields "approxLength" false ∧
  hasField queryRequestFields "repos" false ∧
  hasField queryRequestFields "boostDirectives" true ∧
  hasField queryRequestRepoFields "versionSpecifier" true ∧
  hasField boostDirectivesFields "files" true ∧
  hasField boostDirectivesFields "declarations" true ∧
  hasField boostDeclarationFields "repoId" false ∧
  hasField boostDeclarationFields "path" false ∧
  hasField boostDeclarationFields "includeImplementation" false

instance : Decidable claimC6Shape := by
  unfold claimC6Shape
  infer_instance

/-- The query-request shape as the source declares it: as in `claimC6Shape`
but the per-repo version specifier is required and instead the per-repo
checkout path is the optional field. -/
def sourceQueryRequestShape : Prop :=
  hasField queryRequestFields "messages" false ∧
  hasField queryRequestFields "approxLength" false ∧
  hasField queryRequestFields "repos" false ∧
  hasField queryRequestFields "boostDirectives" true ∧
  hasField queryRequestRepoFields "versionSpecifier" false ∧
  hasField queryRequestRepoFields "checkoutPath" true ∧
  hasField boostDirectivesFields "files" true ∧
  hasField boostDirectivesFields "declarations" true ∧
  hasField boostDeclarationFields "repoId" false ∧
  hasField boostDeclarationFields "path" false ∧
  hasField boostDeclarationFields "includeImplementation" false

instance : Decidable sourceQueryRequestShape := by
  unfold sourceQueryRequestShape
  infer_instance

/-- The chunk fields listed by the spec sentence behind claim C7 (with the
vector embedding expressed by the named-vector block, checked separately),
plus the owning file version. -/
def claimedChunkFields : List String :=
  [ "content", "commentary", "lineStart", "lineEnd", "language",
    "declarationType", "referenceSymbols", "referenceChunks", "fileVersion" ]

/-- Whether a named-vector configuration makes the store compute the vector
itself: exactly when its vectorizer is not the literal `none`. -/
def storeComputesVector (v : NamedVector) : Bool :=
  v.vectorizer ≠ "none"

/-! ## Chunk Builder, modelled from the spec (no implementation under `src/`)

The Chunk Builder of spec section 4.1 is represented at the level of line
spans.  A file of `numLines` lines is divided into content items at the start
lines of its top-level declarations (for ungrammared formats, at heading or
key-group boundaries); the leading file-level material belongs to the first
item, so the first item starts at line 1.  Consecutive items smaller than the
configured minimum size are merged; oversized items are kept whole. -/

/-- Modelled from the spec: the content-item spans drawn from a sorted list of
boundary start lines.  `itemSpansFrom first numLines starts` is the span list
beginning at line `first` where each boundary in `starts` opens the next span,
the last span ending at `numLines`. -/
def itemSpansFrom (first numLines : Nat) : List Nat → List (Nat × Nat)
  | [] => [(first, numLines)]
  | b :: bs => (first, b - 1) :: itemSpansFrom b numLines bs

/-- Modelled from the spec: content items of a whole file; leading file-level
material (imports, header comments) is attached to the first item, so the
first span starts at line 1. -/
def contentItemSpans (numLines : Nat) (starts : List Nat) : List (Nat × Nat) :=
  itemSpansFrom 1 numLines starts

/-- Number of lines a span covers. -/
def chunkSpanLen (p : Nat × Nat) : Nat :=
  p.2 + 1 - p.1

/-- Modelled from the spec: merge consecutive content items smaller than the
configured minimum size into one chunk; a chunk may exceed the soft maximum
rather than split a declaration, so no span is ever split. -/
def mergeSmall (minSize : Nat) : List (Nat × Nat) → List (Nat × Nat)
  | [] => []
  | [p] => [p]
  | p :: q :: rest =>
    if chunkSpanLen p < minSize then mergeSmall minSize ((p.1, q.2) :: rest)
    else p :: mergeSmall minSize (q :: rest)
termination_by l => l.length

/-- Modelled from the spec: the Chunk Builder pipeline for one file version —
content items from declaration boundaries, then the small-item merge. -/
def chunksOfFile (numLines minSize : Nat) (starts : List Nat) : List (Nat × Nat) :=
  mergeSmall minSize (contentItemSpans numLines starts)

/-- `isChainedCover next last l` holds when the spans in `l` are exactly
consecutive: the first starts at `next`, each span is nonempty, each later
span starts right after its predecessor ends, and the final span ends at
`last`.  This encodes ascending order, pairwise disjointness, and gap-free
coverage of lines `next..last` at once. -/
def isChainedCover (next last : Nat) : List (Nat × Nat) → Bool
  | [] => next = last + 1
  | (s, e) :: rest => decide (s = next) && decide (s ≤ e) && isChainedCover (e + 1) last rest

/-! ## Budget Assembler, modelled from the spec (no implementation under `src/`)

Spec section 4.7: walk the ordered list (boosted items first, then remaining
items by rank), accumulating rendered size; render a chunk in full while
budget remains; once the running total would exceed the budget, elide later
chunks (keep metadata, placeholder body); drop the remainder entirely once
even an elided entry would exceed the budget. -/

/-- A chunk as the Budget Assembler sees it: an identity, the rendered size
of its full content and the rendered size of its elided form (boundary
metadata plus placeholder marker). -/
structure RenderChunk where
  chunkId : Nat
  fullLen : Nat
  elidedLen : Nat
deriving DecidableEq, Repr

/-- Modelled from the spec: the allocation walk.  `acc` is the accumulated
rendered size, `eliding` records whether the running total has already
overflowed once (after which later chunks are elided, never rendered full);
the `Bool` in the result marks a chunk rendered in full. -/
def allocateChunks (budget : Nat) : Nat → Bool → List RenderChunk → List (RenderChunk × Bool)
  | _, _, [] => []
  | acc, eliding, c :: rest =>
    if eliding = false ∧ acc + c.fullLen ≤ budget then
      (c, true) :: allocateChunks budget (acc + c.fullLen) false rest
    else if acc + c.elidedLen ≤ budget then
      (c, false) :: allocateChunks budget (acc + c.elidedLen) true rest
    else []

/-- Modelled from the spec: the Budget Assembler on the ranked/boosted chunk
set — boosted items first (in directive order), then the remaining items in
rank order, allocated against the approximate character budget. -/
def assembleResponse (budget : Nat) (boosted ranked : List RenderChunk) :
    List (RenderChunk × Bool) :=
  allocateChunks budget 0 false (boosted ++ ranked)

/-- Rendered character count of one response entry. -/
def renderedLen (p : RenderChunk × Bool) : Nat :=
  if p.2 then p.1.fullLen else p.1.elidedLen

/-- Total rendered character count of a response. -/
def totalRendered (l : List (RenderChunk × Bool)) : Nat :=
  (l.map renderedLen).sum

/-- One chunk's worth of overflow tolerance: the largest full rendering among
the chunks handed to the assembler. -/
def oneChunkTolerance (boosted ranked : List RenderChunk) : Nat :=
  ((boosted ++ ranked).map RenderChunk.fullLen).foldr max 0

/-! ## Reference Graph / Resolver, modelled from the spec (no implementation
under `src/`)

Spec section 4.3: `resolve(identifierUsed, constraints)` returns an ordered
candidate list of definitions; matching is by exact identifier with an
optional entityType filter; the tie-break order is (1) version/commit
proximity to the reference's provenance, (2) path proximity (same file, then
same directory, then same repository, then cross-repository), (3) a stable
ordering by definition identity, making results deterministic. -/

/-- A `ContentEntityDefinition` record as the resolver consumes it, with its
stable identity (`defId`), the defining file version's commit timestamp
(`versionTime`), and the location facts used for path proximity. -/
structure Defn where
  defId : Nat
  identifier : String
  entityType : String
  filePath : String
  dirPath : String
  repoId : String
  versionTime : Nat
  lineStart : Nat
  lineEnd : Nat
deriving DecidableEq, Repr

/-- The constraints a reference carries into `resolve`: its provenance
timestamp and location, plus an optional entityType filter. -/
structure ResolveConstraints where
  refTime : Nat
  refFilePath : String
  refDirPath : String
  refRepoId : String
  entityTypeFilter : Option String := none
deriving DecidableEq, Repr

/-- Modelled from the spec: matching is exact identifier match, optionally
filtered by entityType. -/
def matchesQuery (idu : String) (c : ResolveConstraints) (d : Defn) : Bool :=
  d.identifier == idu &&
    (match c.entityTypeFilter with
     | none => true
     | some t => d.entityType == t)

/-- Modelled from the spec: version/commit proximity.  Definitions valid at
or before the reference's provenance are preferred by recency; definitions
newer than the provenance rank after every at-or-before definition. -/
def versionDist (c : ResolveConstraints) (d : Defn) : Nat :=
  if d.versionTime ≤ c.refTime then c.refTime - d.versionTime
  else c.refTime + 1 + (d.versionTime - c.refTime)

/-- Modelled from the spec: path proximity — same file, then same directory,
then same repository, then cross-repository. -/
def pathRank (c : ResolveConstraints) (d : Defn) : Nat :=
  if d.filePath == c.refFilePath then 0
  else if d.dirPath == c.refDirPath then 1
  else if d.repoId == c.refRepoId then 2
  else 3

/-- The full tie-break key of spec section 4.3: version proximity, then path
proximity, then the stable definition identity. -/
def sortKey (c : ResolveConstraints) (d : Defn) : Nat × Nat × Nat :=
  (versionDist c d, pathRank c d, d.defId)

/-- Lexicographic comparison of tie-break keys. -/
def lex3 (x y : Nat × Nat × Nat) : Bool :=
  decide (x.1 < y.1) ||
    (decide (x.1 = y.1) &&
      (decide (x.2.1 < y.2.1) ||
        (decide (x.2.1 = y.2.1) && decide (x.2.2 ≤ y.2.2))))

/-- The candidate ordering relation used by `resolve`. -/
def rle (c : ResolveConstraints) (a b : Defn) : Prop :=
  lex3 (sortKey c a) (sortKey c b) = true

instance (c : ResolveConstraints) : DecidableRel (rle c) :=
  fun a b => inferInstanceAs (Decidable (lex3 (sortKey c a) (sortKey c b) = true))


instance (c : ResolveConstraints) : IsTotal Defn (rle c) :=
  ⟨fun a b => by
    simp only [rle, lex3, Bool.or_eq_true, Bool.and_eq_true, decide_eq_true_eq]
    omega⟩

instance (c : ResolveConstraints) : IsTrans Defn (rle c) :=
  ⟨fun a b d hab hbd => by
    simp only [rle, lex3, Bool.or_eq_true, Bool.and_eq_true, decide_eq_true_eq] at hab hbd ⊢
    omega⟩


/-- Modelled from the spec: `resolve(identifierUsed, constraints)` — filter
the store's definitions by exact identifier (and optional entityType), then
order the candidates by the tie-break key. -/
def resolve (store : List Defn) (idu : String) (c : ResolveConstraints) : List Defn :=
  List.insertionSort (rle c) (store.filter (matchesQuery idu c))


/-- A sample definition record used to exercise `resolve` on concrete data. -/
def sampleDefnA : Defn :=
  { defId := 1, identifier := "foo", entityType := "function",
    filePath := "a/b.ts", dirPath := "a", repoId := "r1",
    versionTime := 5, lineStart := 1, lineEnd := 10 }

/-- A second sample definition record with the same identifier. -/
def sampleDefnB : Defn :=
  { defId := 2, identifier := "foo", entityType := "function",
    filePath := "c/d.ts", dirPath := "c", repoId := "r1",
    versionTime := 7, lineStart := 3, lineEnd := 8 }

/-- Sample resolution constraints for a reference to `foo` from `a/b.ts`
with provenance timestamp 6. -/
def sampleConstraints : ResolveConstraints :=
  { refTime := 6, refFilePath := "a/b.ts", refDirPath := "a", refRepoId := "r1" }

/-! ## Auxiliary lemmas -/

theorem itemSpansFrom_chained (numLines : Nat) :
    ∀ (starts : List Nat) (first : Nat), 1 ≤ first → first ≤ numLines →
      List.Chain' (fun a b => a < b) (first :: starts) →
      (∀ b ∈ starts, b ≤ numLines) →
      isChainedCover first numLines (itemSpansFrom first numLines starts) = true := by
  intro starts
  induction starts with
  | nil =>
    intro first h1 h2 _ _
    simp [itemSpansFrom, isChainedCover]
    omega
  | cons b bs ih =>
    intro first h1 h2 hchain hmem
    have hfb : first < b := List.chain'_cons.mp hchain |>.1
    have hchain' : List.Chain' (fun a b => a < b) (b :: bs) :=
      List.chain'_cons.mp hchain |>.2
    have hb : b ≤ numLines := hmem b (List.mem_cons_self b bs)
    have hrec := ih b (by omega) hb hchain' (fun x hx => hmem x (List.mem_cons_of_mem b hx))
    simp [itemSpansFrom, isChainedCover]
    refine ⟨by omega, ?_⟩
    have : b - 1 + 1 = b := by omega
    rw [this]
    exact hrec

theorem mergeSmall_chained (minSize : Nat) :
    ∀ (l : List (Nat × Nat)) (next last : Nat),
      isChainedCover next last l = true →
      isChainedCover next last (mergeSmall minSize l) = true := by
  intro l
  induction l using mergeSmall.induct minSize with
  | case1 => intro next last h; simpa [mergeSmall] using h
  | case2 p => intro next last h; simpa [mergeSmall] using h
  | case3 p q rest hsmall ih =>
    intro next last h
    obtain ⟨s, e⟩ := p
    obtain ⟨s2, e2⟩ := q
    simp only [isChainedCover, Bool.and_eq_true, decide_eq_true_eq] at h
    obtain ⟨⟨hs, hse⟩, ⟨hs2, hs2e2⟩, h3⟩ := h
    rw [mergeSmall, if_pos hsmall]
    apply ih
    simp only [isChainedCover, Bool.and_eq_true, decide_eq_true_eq]
    exact ⟨⟨hs, by omega⟩, h3⟩
  | case4 p q rest hbig ih =>
    intro next last h
    obtain ⟨s, e⟩ := p
    obtain ⟨s2, e2⟩ := q
    simp only [isChainedCover, Bool.and_eq_true, decide_eq_true_eq] at h
    obtain ⟨⟨hs, hse⟩, ⟨hs2, hs2e2⟩, h3⟩ := h
    rw [mergeSmall, if_neg hbig]
    simp only [isChainedCover, Bool.and_eq_true, decide_eq_true_eq]
    refine ⟨⟨hs, hse⟩, ?_⟩
    apply ih
    simp only [isChainedCover, Bool.and_eq_true, decide_eq_true_eq]
    exact ⟨⟨hs2, hs2e2⟩, h3⟩

theorem chained_mem_bounds :
    ∀ (l : List (Nat × Nat)) (next last : Nat),
      isChainedCover next last l = true →
      ∀ p ∈ l, next ≤ p.1 ∧ p.1 ≤ p.2 ∧ p.2 ≤ last := by
  intro l
  induction l with
  | nil => intro next last _ p hp; cases hp
  | cons a t ih =>
    intro next last h p hp
    obtain ⟨s, e⟩ := a
    simp [isChainedCover] at h
    obtain ⟨⟨hs, hse⟩, h2⟩ := h
    have hend : e ≤ last := by
      cases t with
      | nil => simp [isChainedCover] at h2; omega
      | cons b u =>
        obtain ⟨s2, e2⟩ := b
        simp [isChainedCover] at h2
        have := ih (e + 1) last (by simp [isChainedCover]; exact h2) (s2, e2)
          (List.mem_cons_self _ _)
        simp at this
        omega
    rcases List.mem_cons.mp hp with heq | hmem
    · subst heq; simp; omega
    · have := ih (e + 1) last h2 p hmem
      omega

theorem chained_pairwise :
    ∀ (l : List (Nat × Nat)) (next last : Nat),
      isChainedCover next last l = true →
      List.Pairwise (fun p q : Nat × Nat => p.2 < q.1) l := by
  intro l
  induction l with
  | nil => intro next last _; exact List.Pairwise.nil
  | cons a t ih =>
    intro next last h
    obtain ⟨s, e⟩ := a
    simp [isChainedCover] at h
    obtain ⟨⟨hs, hse⟩, h2⟩ := h
    refine List.pairwise_cons.mpr ⟨?_, ih (e + 1) last h2⟩
    intro p hp
    have := chained_mem_bounds t (e + 1) last h2 p hp
    simp
    omega

theorem allocateChunks_total_le (budget : Nat) :
    ∀ (l : List RenderChunk) (acc : Nat) (eliding : Bool), acc ≤ budget →
      acc + totalRendered (allocateChunks budget acc eliding l) ≤ budget := by
  intro l
  induction l with
  | nil => intro acc eliding h; simp [allocateChunks, totalRendered]; omega
  | cons c rest ih =>
    intro acc eliding h
    rw [allocateChunks]
    by_cases h1 : eliding = false ∧ acc + c.fullLen ≤ budget
    · rw [if_pos h1]
      have := ih (acc + c.fullLen) false h1.2
      simp [totalRendered, renderedLen] at this ⊢
      omega
    · rw [if_neg h1]
      by_cases h2 : acc + c.elidedLen ≤ budget
      · rw [if_pos h2]
        have := ih (acc + c.elidedLen) true h2
        simp [totalRendered, renderedLen] at this ⊢
        omega
      · rw [if_neg h2]
        simp [totalRendered]
        omega

theorem allocateChunks_boosted_present (budget : Nat) :
    ∀ (boosted rest : List RenderChunk) (acc : Nat),
      acc + (boosted.map RenderChunk.fullLen).sum ≤ budget →
      ∀ c ∈ boosted,
        c ∈ (allocateChunks budget acc false (boosted ++ rest)).map Prod.fst := by
  intro boosted
  induction boosted with
  | nil => intro rest acc _ c hc; cases hc
  | cons b bs ih =>
    intro rest acc hle c hc
    have hfit : acc + b.fullLen ≤ budget := by
      simp only [List.map_cons, List.sum_cons] at hle
      omega
    rw [List.cons_append, allocateChunks, if_pos ⟨rfl, hfit⟩]
    rcases List.mem_cons.mp hc with heq | hmem
    · subst heq
      simp
    · simp only [List.map_cons]
      apply List.mem_cons_of_mem
      apply ih rest (acc + b.fullLen) _ c hmem
      simp only [List.map_cons, List.sum_cons] at hle
      omega

theorem lex3_total (x y : Nat × Nat × Nat) : lex3 x y = true ∨ lex3 y x = true := by
  simp only [lex3, Bool.or_eq_true, Bool.and_eq_true, decide_eq_true_eq]
  omega

theorem lex3_trans (x y z : Nat × Nat × Nat) (h1 : lex3 x y = true)
    (h2 : lex3 y z = true) : lex3 x z = true := by
  simp only [lex3, Bool.or_eq_true, Bool.and_eq_true, decide_eq_true_eq] at h1 h2 ⊢
  omega

theorem lex3_antisymm (x y : Nat × Nat × Nat) (h1 : lex3 x y = true)
    (h2 : lex3 y x = true) : x = y := by
  obtain ⟨x1, x2, x3⟩ := x
  obtain ⟨y1, y2, y3⟩ := y
  simp only [lex3, Bool.or_eq_true, Bool.and_eq_true, decide_eq_true_eq] at h1 h2
  simp only [Prod.mk.injEq]
  omega

theorem rle_both_defId_eq (c : ResolveConstraints) (a b : Defn)
    (h1 : rle c a b) (h2 : rle c b a) : a.defId = b.defId := by
  have := lex3_antisymm (sortKey c a) (sortKey c b) h1 h2
  simp only [sortKey, Prod.mk.injEq] at this
  exact this.2.2

theorem sorted_perm_eq_of_nodup_ids (c : ResolveConstraints) :
    ∀ (l₁ l₂ : List Defn), l₁.Perm l₂ →
      List.Sorted (rle c) l₁ → List.Sorted (rle c) l₂ →
      (l₁.map Defn.defId).Nodup → l₁ = l₂ := by
  intro l₁
  induction l₁ with
  | nil =>
    intro l₂ hp _ _ _
    exact hp.nil_eq
  | cons a t₁ ih =>
    intro l₂ hp hs₁ hs₂ hnd
    cases l₂ with
    | nil => exact absurd hp.symm.nil_eq (by simp)
    | cons b t₂ =>
      by_cases hab : a = b
      · subst hab
        have htp : t₁.Perm t₂ := hp.cons_inv
        have := ih t₂ htp (List.sorted_cons.mp hs₁).2 (List.sorted_cons.mp hs₂).2
          (by simpa using (List.nodup_cons.mp (by simpa using hnd)).2)
        rw [this]
      · exfalso
        have hamem : a ∈ b :: t₂ := hp.subset (List.mem_cons_self a t₁)
        have hat₂ : a ∈ t₂ := by
          rcases List.mem_cons.mp hamem with h | h
          · exact absurd h hab
          · exact h
        have hbmem : b ∈ a :: t₁ := hp.symm.subset (List.mem_cons_self b t₂)
        have hbt₁ : b ∈ t₁ := by
          rcases List.mem_cons.mp hbmem with h | h
          · exact absurd h.symm hab
          · exact h
        have hba : rle c b a := (List.sorted_cons.mp hs₂).1 a hat₂
        have hab' : rle c a b := (List.sorted_cons.mp hs₁).1 b hbt₁
        have hid : a.defId = b.defId := rle_both_defId_eq c a b hab' hba
        have : a = b :=
          List.inj_on_of_nodup_map hnd (List.mem_cons_self a t₁)
            (List.mem_cons_of_mem a hbt₁) hid
        exact hab this

theorem chained_count :
    ∀ (l : List (Nat × Nat)) (next last : Nat),
      isChainedCover next last l = true →
      ∀ line, next ≤ line → line ≤ last →
        l.countP (fun p => decide (p.1 ≤ line ∧ line ≤ p.2)) = 1 := by
  intro l
  induction l with
  | nil =>
    intro next last h line h1 h2
    simp [isChainedCover] at h
    omega
  | cons a t ih =>
    intro next last h line h1 h2
    obtain ⟨s, e⟩ := a
    simp [isChainedCover] at h
    obtain ⟨⟨hs, hse⟩, h2'⟩ := h
    by_cases hle : line ≤ e
    · rw [List.countP_cons_of_pos]
      · have hzero : t.countP (fun p => decide (p.1 ≤ line ∧ line ≤ p.2)) = 0 := by
          rw [List.countP_eq_zero]
          intro p hp
          have := chained_mem_bounds t (e + 1) last h2' p hp
          simp
          omega
        rw [hzero]
      · simp; omega
    · rw [List.countP_cons_of_neg]
      · exact ih (e + 1) last h2' line (by omega) h2
      · simp; omega

/-! ## Claim theorems -/

/-- C1: the claim says a successful run of `createAllSchemas` leaves the store
with classes for all record kinds the engine persists — Chunk, FileVersion,
CommitFileVersion, ContentEntityDefinition, and ContentEntityReference.  The
code registers only the first three: against an empty store, the run produces
exactly the classes Chunk, FileVersion and CommitFileVersion, and neither
ContentEntityDefinition nor ContentEntityReference is created, even though
both schemas are defined in the same source file. -/
theorem createAllSchemas_missing_content_entity_classes :
    classNames (createAllSchemas []) = ["Chunk", "FileVersion", "CommitFileVersion"] ∧
    "ContentEntityDefinition" ∉ classNames (createAllSchemas []) ∧
    "ContentEntityReference" ∉ classNames (createAllSchemas []) := by
  refine ⟨rfl, ?_, ?_⟩ <;> decide

/-- C2: for every file version whose file was successfully parsed, the chunks
produced by the Chunk Builder have pairwise non-overlapping line ranges in
ascending order, and their union covers every line of the file exactly once.
The builder is modelled from the spec: content items are cut at the sorted
declaration boundary lines (each past line 1 and within the file), leading
file-level material joins the first item, and consecutive items below the
minimum size are merged. -/
theorem chunk_coverage (numLines minSize : Nat) (starts : List Nat)
    (h1 : 1 ≤ numLines)
    (h2 : List.Chain' (fun a b => a < b) (1 :: starts))
    (h3 : ∀ b ∈ starts, b ≤ numLines) :
    List.Pairwise (fun p q : Nat × Nat => p.2 < q.1)
      (chunksOfFile numLines minSize starts) ∧
    ∀ line, 1 ≤ line → line ≤ numLines →
      (chunksOfFile numLines minSize starts).countP
        (fun p => decide (p.1 ≤ line ∧ line ≤ p.2)) = 1 := by
  have hbase := itemSpansFrom_chained numLines starts 1 (le_refl 1) h1 h2 h3
  have hchain := mergeSmall_chained minSize (contentItemSpans numLines starts)
    1 numLines hbase
  exact ⟨chained_pairwise _ 1 numLines hchain,
    fun line hl1 hl2 => chained_count _ 1 numLines hchain line hl1 hl2⟩

/-- Witness for C2 at a five-line file with one declaration boundary at
line 3 and minimum chunk size 2. -/
theorem chunk_coverage_witness :
    List.Pairwise (fun p q : Nat × Nat => p.2 < q.1) (chunksOfFile 5 2 [3]) ∧
    ∀ line, 1 ≤ line → line ≤ 5 →
      (chunksOfFile 5 2 [3]).countP
        (fun p => decide (p.1 ≤ line ∧ line ≤ p.2)) = 1 :=
  chunk_coverage 5 2 [3] (by decide) (by simp [List.chain'_cons]) (by decide)

/-- C3: the ContentEntityReference class stores only the usage side's facts —
identifier used, reference type, owning file version, its own file path and
line range, and the optional owning chunk — and no property of the stored
shape refers to the resolved definition or its location. -/
theorem reference_schema_usage_side_only :
    contentEntityReferenceSchema.properties.map SchemaProperty.name =
      ["identifierUsed", "referenceType", "fileVersion", "filePath",
       "lineStart", "lineEnd", "appearsInChunk"] ∧
    ∀ p ∈ contentEntityReferenceSchema.properties,
      "ContentEntityDefinition" ∉ p.dataType := by
  exact ⟨rfl, by decide⟩

/-- C4: the assembled response's total rendered character count never exceeds
the character budget by more than one chunk's worth of overflow tolerance,
and every boosted chunk is present in the response whenever the budget is
non-trivial (at least the full rendering of the boosted chunks).  The Budget
Assembler is modelled from the spec: boosted items first, full rendering
while budget remains, elision after the first overflow, tail cut when even an
elided entry would overflow. -/
theorem budget_assembler_correct (budget : Nat) (boosted ranked : List RenderChunk) :
    totalRendered (assembleResponse budget boosted ranked) ≤
      budget + oneChunkTolerance boosted ranked ∧
    ((boosted.map RenderChunk.fullLen).sum ≤ budget →
      ∀ c ∈ boosted,
        c ∈ (assembleResponse budget boosted ranked).map Prod.fst) := by
  constructor
  · have h := allocateChunks_total_le budget (boosted ++ ranked) 0 false (Nat.zero_le _)
    unfold assembleResponse
    omega
  · intro h c hc
    exact allocateChunks_boosted_present budget boosted ranked 0 (by omega) c hc

/-- Witness for C4: budget 100, one boosted chunk of full size 30, one ranked
chunk of full size 200 (elided size 8). -/
theorem budget_assembler_correct_witness :
    (List.map RenderChunk.fullLen [⟨1, 30, 5⟩]).sum ≤ 100 ∧
    totalRendered (assembleResponse 100 [⟨1, 30, 5⟩] [⟨2, 200, 8⟩]) ≤
      100 + oneChunkTolerance [⟨1, 30, 5⟩] [⟨2, 200, 8⟩] ∧
    ∀ c ∈ ([⟨1, 30, 5⟩] : List RenderChunk),
      c ∈ (assembleResponse 100 [⟨1, 30, 5⟩] [⟨2, 200, 8⟩]).map Prod.fst := by
  have h := budget_assembler_correct 100 [⟨1, 30, 5⟩] [⟨2, 200, 8⟩]
  exact ⟨by decide, h.1, h.2 (by decide)⟩

/-- C5: `resolve` is deterministic — two calls with identical inputs against
an unchanged store return the identical ordered candidate list.  The store is
unchanged exactly when it holds the same definition records, regardless of
enumeration order, so the statement quantifies over two enumerations of the
same store contents; the stable final tie-break (definition identity) makes
the ordered output independent of the enumeration, provided identities are
unique as the data model requires. -/
theorem resolve_deterministic (s₁ s₂ : List Defn) (idu : String)
    (c : ResolveConstraints)
    (hperm : s₁.Perm s₂) (hnd : (s₁.map Defn.defId).Nodup) :
    resolve s₁ idu c = resolve s₂ idu c := by
  unfold resolve
  have hpf : (s₁.filter (matchesQuery idu c)).Perm (s₂.filter (matchesQuery idu c)) :=
    hperm.filter _
  have hsort₁ := List.sorted_insertionSort (rle c) (s₁.filter (matchesQuery idu c))
  have hsort₂ := List.sorted_insertionSort (rle c) (s₂.filter (matchesQuery idu c))
  have hp : (List.insertionSort (rle c) (s₁.filter (matchesQuery idu c))).Perm
      (List.insertionSort (rle c) (s₂.filter (matchesQuery idu c))) :=
    (List.perm_insertionSort _ _).trans (hpf.trans (List.perm_insertionSort _ _).symm)
  apply sorted_perm_eq_of_nodup_ids c _ _ hp hsort₁ hsort₂
  have hsub : (s₁.filter (matchesQuery idu c)).Sublist s₁ := List.filter_sublist s₁
  have hnd₂ : ((s₁.filter (matchesQuery idu c)).map Defn.defId).Nodup :=
    List.Nodup.sublist (List.Sublist.map Defn.defId hsub) hnd
  exact (List.Perm.nodup_iff ((List.perm_insertionSort (rle c) _).map Defn.defId)).mpr hnd₂

/-- Witness for C5: two enumerations of a two-definition store. -/
theorem resolve_deterministic_witness :
    ([sampleDefnA, sampleDefnB].Perm [sampleDefnB, sampleDefnA]) ∧
    (([sampleDefnA, sampleDefnB].map Defn.defId).Nodup) ∧
    resolve [sampleDefnA, sampleDefnB] "foo" sampleConstraints =
      resolve [sampleDefnB, sampleDefnA] "foo" sampleConstraints := by
  refine ⟨by decide, by decide, ?_⟩
  exact resolve_deterministic [sampleDefnA, sampleDefnB] [sampleDefnB, sampleDefnA]
    "foo" sampleConstraints (by decide) (by decide)

/-- C6 counterexample: the claim says the per-repo version specifier is
optional in the query request accepted from the API layer; in the source
`versionSpecifier` is a required field of each element of
`QueryRequest.repos` (the optional per-repo field is `checkoutPath`), so the
claimed shape does not hold. -/
theorem queryRequest_versionSpecifier_not_optional : ¬ claimC6Shape := by
  decide

/-- C6 amended: the query request consists of conversation messages,
approxLength, a list of repos in which the version specifier is required and
the checkout path is optional per repo, and an optional boostDirectives
object with files and declarations carrying repoId, path, and
includeImplementation. -/
theorem queryRequest_source_shape : sourceQueryRequestShape := by
  decide

/-- C7 counterexample: the claim says a stored Chunk carries exactly the
spec's listed fields; the stored shape additionally carries `repoId` (as well
as `filePath` and `contentHash`), which is not among the listed fields. -/
theorem chunk_schema_extra_fields :
    "repoId" ∈ chunkSchema.properties.map SchemaProperty.name ∧
    "repoId" ∉ claimedChunkFields := by
  decide

/-- C7 amended: every stored Chunk record carries all the spec's listed
fields — content, commentary, lineStart, lineEnd, language, declarationType,
referenceSymbols, referenceChunks, the owning fileVersion, and the named
vector embedding — and in addition the denormalized fields repoId, filePath,
and contentHash. -/
theorem chunk_schema_fields_amended :
    (∀ f ∈ claimedChunkFields, f ∈ chunkSchema.properties.map SchemaProperty.name) ∧
    chunkSchema.properties.map SchemaProperty.name =
      ["content", "commentary", "repoId", "filePath", "contentHash",
       "lineStart", "lineEnd", "language", "declarationType",
       "referenceSymbols", "referenceChunks", "fileVersion"] ∧
    chunkSchema.namedVectors.map NamedVector.name = ["embed_formatted_voyage_c3"] := by
  exact ⟨by decide, rfl, rfl⟩

/-- C8: the top-level middleware turns every exception thrown by downstream
request handling into a response with status 500 and body containing
`error: Internal server error`, and passes successful responses through
unchanged; the middleware is total, so no request failure escapes it. -/
theorem error_middleware_spec (e : String) (r : HttpResponse) :
    errorMiddleware (Except.error e) =
      { status := 500, body := [("error", "Internal server error")] } ∧
    errorMiddleware (Except.ok r) = r :=
  ⟨rfl, rfl⟩

/-- C9: the listen port is the integer parse of the PORT environment
variable, and exactly 3000 whenever PORT is unset or empty (JavaScript `||`
treats the empty string as falsy). -/
theorem port_spec (s : String) (h : s ≠ "") :
    port none = some 3000 ∧ port (some "") = some 3000 ∧
    port (some s) = jsParseInt s := by
  refine ⟨by decide, by decide, ?_⟩
  simp only [port, if_neg h]

/-- Witness for C9 at PORT set to 8080. -/
theorem port_spec_witness :
    ("8080" ≠ "") ∧
    (port none = some 3000 ∧ port (some "") = some 3000 ∧
      port (some "8080") = jsParseInt "8080") :=
  ⟨by decide, port_spec "8080" (by decide)⟩

/-- C10: the Chunk class's only named vector, embed_formatted_voyage_c3, is
configured with vectorizer none and dimension 2048, so the store never
computes a chunk's embedding itself and every stored chunk vector is
caller-supplied with dimension 2048. -/
theorem chunk_vector_caller_supplied :
    chunkSchema.namedVectors =
      [{ name := "embed_formatted_voyage_c3", vectorizer := "none",
         dimension := 2048 }] ∧
    ∀ v ∈ chunkSchema.namedVectors,
      storeComputesVector v = false ∧ v.dimension = 2048 := by
  exact ⟨rfl, by decide⟩
